import Mathlib

/-!
Verification of the esfo filesystem indirection shim (esfo.go).

The Go package exposes Go-style filesystem primitives and, when a
`FileSystemHandler` is installed, redirects each verb to that handler;
otherwise it falls through to native OS calls.  The embedding below
models:

  * the handler and the native OS as oracles (structures of pure
    functions returning Go-style `(value, error)` pairs),
  * the package-level `swiftFileMap` (keyed by the native file
    descriptor `f.Fd()`) as an association list threaded explicitly,
  * each exported function of esfo.go as a Lean function that returns
    its Go result, the updated map, and a trace of the backend calls it
    made (handler calls and native calls), so that routing and
    exactly-once properties can be stated.

Go's `copy(dst, src)` is modelled by `goCopy`, Go's `time.Unix` by
`Time.Unix` on a seconds/nanoseconds record.
-/

/-- Go `error` values, opaque to this layer; modelled by their message. -/
abbrev Err := String

/-- Go `[]byte`. -/
abbrev Bytes := List UInt8

/-- esfo.FileInfo: the POD metadata record the handler returns
(`ModTime` is a Unix timestamp in seconds). -/
structure FileInfo where
  Name : String
  Size : Int
  Mode : Nat
  ModTime : Int
  IsDir : Bool
  deriving Repr, DecidableEq

/-- esfo.DirEntry: the POD directory-entry record the handler returns. -/
structure DirEntry where
  Name : String
  IsDir : Bool
  deriving Repr, DecidableEq

/-- Go `time.Time`, reduced to the fields `time.Unix(sec, nsec)` sets. -/
structure GoTime where
  sec : Int
  nsec : Int
  deriving Repr, DecidableEq

/-- Go `time.Unix sec nsec`. -/
def Time.Unix (sec nsec : Int) : GoTime := ⟨sec, nsec⟩

/-- The `fileInfo` struct esfo builds to implement `os.FileInfo` for
handler Stat results; native `os.Stat` results are modelled in the same
shape. -/
structure fileInfo where
  name : String
  size : Int
  mode : Nat
  modTime : GoTime
  isDir : Bool
  deriving Repr, DecidableEq

/-- The `dirEntry` struct esfo builds to implement `os.DirEntry`. -/
structure dirEntry where
  name : String
  isDir : Bool
  deriving Repr, DecidableEq

/-- A `*os.File`: identified by its native descriptor `Fd()`, which is
the key esfo uses for its side table. -/
structure OSFile where
  fd : Nat
  deriving Repr, DecidableEq

/-- esfo.wrappedFile: the metadata stored in `swiftFileMap`. -/
structure wrappedFile where
  file : Nat
  swiftFD : Int
  name : String
  deriving Repr, DecidableEq

/-- The `swiftFileMap`: map from `f.Fd()` to the wrapped metadata, as an
association list. -/
abbrev SwiftFileMap := List (Nat × wrappedFile)

/-- Go map lookup `swiftFileMap[k]`. -/
def mapLookup (m : SwiftFileMap) (k : Nat) : Option wrappedFile :=
  match m with
  | [] => none
  | (k', v) :: rest => if k' = k then some v else mapLookup rest k

/-- Go `delete(swiftFileMap, k)`. -/
def mapErase (m : SwiftFileMap) (k : Nat) : SwiftFileMap :=
  m.filter (fun p => p.1 != k)

/-- Go map assignment `swiftFileMap[k] = v` (replaces any previous
binding). -/
def mapInsert (m : SwiftFileMap) (k : Nat) (v : wrappedFile) : SwiftFileMap :=
  (k, v) :: mapErase m k

/-- Go `copy(dst, src)`: overwrite the first `min |dst| |src|` elements
of `dst` with those of `src`, leaving the rest of `dst` unchanged. -/
def goCopy (dst src : Bytes) : Bytes :=
  src.take dst.length ++ dst.drop (min dst.length src.length)

/-- esfo.FileSystemHandler: the Swift-side backend, modelled as an
oracle of pure functions returning Go-style result/error pairs. -/
structure FileSystemHandler where
  WriteFile : String → Bytes → Nat → Option Err
  ReadFile : String → Bytes × Option Err
  OpenFile : String → Int → Nat → Int × Option Err
  Create : String → Int × Option Err
  Close : Int → Option Err
  Read : Int → Nat → Bytes × Option Err
  Write : Int → Bytes → Int × Option Err
  WriteAt : Int → Bytes → Int → Int × Option Err
  Seek : Int → Int → Int → Int × Option Err
  Sync : Int → Option Err
  Remove : String → Option Err
  Mkdir : String → Nat → Option Err
  MkdirAll : String → Nat → Option Err
  Stat : String → FileInfo × Option Err
  Chmod : String → Nat → Option Err
  Rename : String → String → Option Err
  ReadDir : String → List DirEntry × Option Err
  CreateTemp : String → String → String × Int × Option Err
  RemoveAll : String → Option Err
  ReadLink : String → String × Option Err
  MkdirTemp : String → String → String × Option Err

/-- The native OS backend (package `os`), as an oracle.  File-handle
calls are keyed by the native descriptor.  `fread fd n` returns the
bytes the OS places into an `n`-byte buffer together with the error. -/
structure NativeOS where
  writeFile : String → Bytes → Nat → Option Err
  readFile : String → Bytes × Option Err
  openFile : String → Int → Nat → Except Err Nat
  create : String → Except Err Nat
  createTemp : String → String → Except Err Nat
  fwrite : Nat → Bytes → Int × Option Err
  fwriteAt : Nat → Bytes → Int → Int × Option Err
  fread : Nat → Nat → Bytes × Option Err
  fseek : Nat → Int → Int → Int × Option Err
  fsync : Nat → Option Err
  fclose : Nat → Option Err
  fname : Nat → String
  remove : String → Option Err
  mkdir : String → Nat → Option Err
  mkdirAll : String → Nat → Option Err
  stat : String → Option fileInfo × Option Err
  chmod : String → Nat → Option Err
  rename : String → String → Option Err
  readDir : String → Option (List dirEntry) × Option Err
  removeAll : String → Option Err
  readLink : String → String × Option Err
  mkdirTemp : String → String → String × Option Err

/-- One backend call made during an esfo operation: `h…` events are
calls into the installed handler, `n…` events are native OS calls on a
file handle or path. -/
inductive Event where
  | hOpenFile (name : String) (flag : Int) (perm : Nat)
  | hCreate (name : String)
  | hCreateTemp (dir pattern : String)
  | hClose (fd : Int)
  | hRead (fd : Int) (count : Nat)
  | hWrite (fd : Int) (data : Bytes)
  | hWriteAt (fd : Int) (data : Bytes) (off : Int)
  | hSeek (fd : Int) (off : Int) (whence : Int)
  | hSync (fd : Int)
  | nOpenFile (name : String) (flag : Int) (perm : Nat)
  | nCreate (name : String)
  | nRead (fd : Nat) (count : Nat)
  | nWrite (fd : Nat) (data : Bytes)
  | nWriteAt (fd : Nat) (data : Bytes) (off : Int)
  | nSeek (fd : Nat) (off : Int) (whence : Int)
  | nSync (fd : Nat)
  | nClose (fd : Nat)
  deriving Repr, DecidableEq

/-- True of events that are native data I/O on an open handle
(read, write, write-at, seek, sync). -/
def Event.isNativeData : Event → Bool
  | .nRead _ _ => true
  | .nWrite _ _ => true
  | .nWriteAt _ _ _ => true
  | .nSeek _ _ _ => true
  | .nSync _ => true
  | _ => false

/-- True of events that are calls into the installed handler. -/
def Event.isHandlerCall : Event → Bool
  | .hOpenFile _ _ _ => true
  | .hCreate _ => true
  | .hCreateTemp _ _ => true
  | .hClose _ => true
  | .hRead _ _ => true
  | .hWrite _ _ => true
  | .hWriteAt _ _ _ => true
  | .hSeek _ _ _ => true
  | .hSync _ => true
  | _ => false

namespace Esfo

/-- esfo.addSwiftFile: `swiftFileMap[f.Fd()] = {file: f, swiftFD, name}`. -/
def addSwiftFile (m : SwiftFileMap) (f : OSFile) (swiftFD : Int) (name : String) : SwiftFileMap :=
  mapInsert m f.fd ⟨f.fd, swiftFD, name⟩

/-- esfo.getSwiftFile: lookup `swiftFileMap[f.Fd()]`. -/
def getSwiftFile (m : SwiftFileMap) (f : OSFile) : Option wrappedFile :=
  mapLookup m f.fd

/-- esfo.removeSwiftFile: `delete(swiftFileMap, f.Fd())`. -/
def removeSwiftFile (m : SwiftFileMap) (f : OSFile) : SwiftFileMap :=
  mapErase m f.fd

/-- esfo.Write on a handle. -/
def Write (h : Option FileSystemHandler) (os : NativeOS) (m : SwiftFileMap)
    (f : OSFile) (data : Bytes) : (Int × Option Err) × SwiftFileMap × List Event :=
  match h with
  | some hd =>
    match getSwiftFile m f with
    | some wf => (hd.Write wf.swiftFD data, m, [Event.hWrite wf.swiftFD data])
    | none => (os.fwrite f.fd data, m, [Event.nWrite f.fd data])
  | none => (os.fwrite f.fd data, m, [Event.nWrite f.fd data])

/-- esfo.WriteAt on a handle. -/
def WriteAt (h : Option FileSystemHandler) (os : NativeOS) (m : SwiftFileMap)
    (f : OSFile) (data : Bytes) (offset : Int) :
    (Int × Option Err) × SwiftFileMap × List Event :=
  match h with
  | some hd =>
    match getSwiftFile m f with
    | some wf => (hd.WriteAt wf.swiftFD data offset, m, [Event.hWriteAt wf.swiftFD data offset])
    | none => (os.fwriteAt f.fd data offset, m, [Event.nWriteAt f.fd data offset])
  | none => (os.fwriteAt f.fd data offset, m, [Event.nWriteAt f.fd data offset])

/-- The native fallback of esfo.Read: `f.Read(data)`, returning the
reported count and error, the buffer after the call, the (unchanged)
map, and the trace. -/
def nativeRead (os : NativeOS) (m : SwiftFileMap) (f : OSFile) (data : Bytes) :
    (Int × Option Err) × Bytes × SwiftFileMap × List Event :=
  let r := os.fread f.fd data.length
  (((r.1.length : Int), r.2), goCopy data r.1, m, [Event.nRead f.fd data.length])

/-- esfo.Read on a handle: with a tracked handle, ask the handler for
`len(data)` bytes; on error return `(0, err)` with the buffer
untouched; on success `copy(data, b)` and report `len(b)`. -/
def Read (h : Option FileSystemHandler) (os : NativeOS) (m : SwiftFileMap)
    (f : OSFile) (data : Bytes) :
    (Int × Option Err) × Bytes × SwiftFileMap × List Event :=
  match h with
  | some hd =>
    match getSwiftFile m f with
    | some wf =>
      let r := hd.Read wf.swiftFD data.length
      match r.2 with
      | some e => ((0, some e), data, m, [Event.hRead wf.swiftFD data.length])
      | none => (((r.1.length : Int), none), goCopy data r.1, m, [Event.hRead wf.swiftFD data.length])
    | none => nativeRead os m f data
  | none => nativeRead os m f data

/-- esfo.Close on a handle: when tracked, call the handler's Close,
remove the map entry, and return the handler error if any; otherwise
(and after a successful handler close) close the native file. -/
def Close (h : Option FileSystemHandler) (os : NativeOS) (m : SwiftFileMap)
    (f : OSFile) : Option Err × SwiftFileMap × List Event :=
  match h with
  | some hd =>
    match getSwiftFile m f with
    | some wf =>
      let err := hd.Close wf.swiftFD
      let m' := removeSwiftFile m f
      match err with
      | some e => (some e, m', [Event.hClose wf.swiftFD])
      | none => (os.fclose f.fd, m', [Event.hClose wf.swiftFD, Event.nClose f.fd])
    | none => (os.fclose f.fd, m, [Event.nClose f.fd])
  | none => (os.fclose f.fd, m, [Event.nClose f.fd])

/-- esfo.Seek on a handle. -/
def Seek (h : Option FileSystemHandler) (os : NativeOS) (m : SwiftFileMap)
    (f : OSFile) (offset : Int) (whence : Int) :
    (Int × Option Err) × SwiftFileMap × List Event :=
  match h with
  | some hd =>
    match getSwiftFile m f with
    | some wf => (hd.Seek wf.swiftFD offset whence, m, [Event.hSeek wf.swiftFD offset whence])
    | none => (os.fseek f.fd offset whence, m, [Event.nSeek f.fd offset whence])
  | none => (os.fseek f.fd offset whence, m, [Event.nSeek f.fd offset whence])

/-- esfo.Sync on a handle. -/
def Sync (h : Option FileSystemHandler) (os : NativeOS) (m : SwiftFileMap)
    (f : OSFile) : Option Err × SwiftFileMap × List Event :=
  match h with
  | some hd =>
    match getSwiftFile m f with
    | some wf => (hd.Sync wf.swiftFD, m, [Event.hSync wf.swiftFD])
    | none => (os.fsync f.fd, m, [Event.nSync f.fd])
  | none => (os.fsync f.fd, m, [Event.nSync f.fd])

/-- esfo.Name on a handle. -/
def Name (h : Option FileSystemHandler) (os : NativeOS) (m : SwiftFileMap)
    (f : OSFile) : String :=
  match h with
  | some _ =>
    match getSwiftFile m f with
    | some wf => wf.name
    | none => os.fname f.fd
  | none => os.fname f.fd

/-- esfo.OpenFile: with a handler, first request a remote descriptor;
only then open the native file, closing the remote descriptor when the
native open fails; on success record the association. -/
def OpenFile (h : Option FileSystemHandler) (os : NativeOS) (m : SwiftFileMap)
    (name : String) (flag : Int) (perm : Nat) :
    Except Err OSFile × SwiftFileMap × List Event :=
  match h with
  | some hd =>
    let r := hd.OpenFile name flag perm
    match r.2 with
    | some e => (Except.error e, m, [Event.hOpenFile name flag perm])
    | none =>
      match os.openFile name flag perm with
      | Except.error e =>
        (Except.error e, m,
          [Event.hOpenFile name flag perm, Event.nOpenFile name flag perm, Event.hClose r.1])
      | Except.ok nfd =>
        (Except.ok ⟨nfd⟩, addSwiftFile m ⟨nfd⟩ r.1 name,
          [Event.hOpenFile name flag perm, Event.nOpenFile name flag perm])
  | none =>
    match os.openFile name flag perm with
    | Except.error e => (Except.error e, m, [Event.nOpenFile name flag perm])
    | Except.ok nfd => (Except.ok ⟨nfd⟩, m, [Event.nOpenFile name flag perm])

/-- esfo.Create, structured like OpenFile with `os.Create` as the local
step. -/
def Create (h : Option FileSystemHandler) (os : NativeOS) (m : SwiftFileMap)
    (name : String) : Except Err OSFile × SwiftFileMap × List Event :=
  match h with
  | some hd =>
    let r := hd.Create name
    match r.2 with
    | some e => (Except.error e, m, [Event.hCreate name])
    | none =>
      match os.create name with
      | Except.error e =>
        (Except.error e, m, [Event.hCreate name, Event.nCreate name, Event.hClose r.1])
      | Except.ok nfd =>
        (Except.ok ⟨nfd⟩, addSwiftFile m ⟨nfd⟩ r.1 name,
          [Event.hCreate name, Event.nCreate name])
  | none =>
    match os.create name with
    | Except.error e => (Except.error e, m, [Event.nCreate name])
    | Except.ok nfd => (Except.ok ⟨nfd⟩, m, [Event.nCreate name])

/-- esfo.CreateTemp: the handler returns a filename and a remote
descriptor; the local step opens that filename with `O_RDWR, 0600`. -/
def CreateTemp (h : Option FileSystemHandler) (os : NativeOS) (m : SwiftFileMap)
    (dir pattern : String) : Except Err OSFile × SwiftFileMap × List Event :=
  match h with
  | some hd =>
    let r := hd.CreateTemp dir pattern
    match r.2.2 with
    | some e => (Except.error e, m, [Event.hCreateTemp dir pattern])
    | none =>
      match os.openFile r.1 2 384 with
      | Except.error e =>
        (Except.error e, m,
          [Event.hCreateTemp dir pattern, Event.nOpenFile r.1 2 384, Event.hClose r.2.1])
      | Except.ok nfd =>
        (Except.ok ⟨nfd⟩, addSwiftFile m ⟨nfd⟩ r.2.1 r.1,
          [Event.hCreateTemp dir pattern, Event.nOpenFile r.1 2 384])
  | none =>
    match os.createTemp dir pattern with
    | Except.error e => (Except.error e, m, [])
    | Except.ok nfd => (Except.ok ⟨nfd⟩, m, [])

/-- esfo.WriteFile. -/
def WriteFile (h : Option FileSystemHandler) (os : NativeOS)
    (filename : String) (data : Bytes) (perm : Nat) : Option Err :=
  match h with
  | some hd => hd.WriteFile filename data perm
  | none => os.writeFile filename data perm

/-- esfo.ReadFile. -/
def ReadFile (h : Option FileSystemHandler) (os : NativeOS)
    (filename : String) : Bytes × Option Err :=
  match h with
  | some hd => hd.ReadFile filename
  | none => os.readFile filename

/-- esfo.Remove. -/
def Remove (h : Option FileSystemHandler) (os : NativeOS) (name : String) : Option Err :=
  match h with
  | some hd => hd.Remove name
  | none => os.remove name

/-- esfo.Mkdir. -/
def Mkdir (h : Option FileSystemHandler) (os : NativeOS) (name : String) (perm : Nat) : Option Err :=
  match h with
  | some hd => hd.Mkdir name perm
  | none => os.mkdir name perm

/-- esfo.MkdirAll. -/
def MkdirAll (h : Option FileSystemHandler) (os : NativeOS) (name : String) (perm : Nat) : Option Err :=
  match h with
  | some hd => hd.MkdirAll name perm
  | none => os.mkdirAll name perm

/-- esfo.Stat: with a handler, translate the handler's FileInfo into
the `fileInfo` value object, converting the epoch-seconds ModTime with
`time.Unix(sec, 0)`. -/
def Stat (h : Option FileSystemHandler) (os : NativeOS) (name : String) :
    Option fileInfo × Option Err :=
  match h with
  | some hd =>
    let r := hd.Stat name
    match r.2 with
    | some e => (none, some e)
    | none => (some ⟨r.1.Name, r.1.Size, r.1.Mode, Time.Unix r.1.ModTime 0, r.1.IsDir⟩, none)
  | none => os.stat name

/-- esfo.Chmod. -/
def Chmod (h : Option FileSystemHandler) (os : NativeOS) (name : String) (mode : Nat) : Option Err :=
  match h with
  | some hd => hd.Chmod name mode
  | none => os.chmod name mode

/-- esfo.Rename. -/
def Rename (h : Option FileSystemHandler) (os : NativeOS) (oldpath newpath : String) : Option Err :=
  match h with
  | some hd => hd.Rename oldpath newpath
  | none => os.rename oldpath newpath

/-- esfo.ReadDir: with a handler, translate each DirEntry into the
`dirEntry` value object. -/
def ReadDir (h : Option FileSystemHandler) (os : NativeOS) (name : String) :
    Option (List dirEntry) × Option Err :=
  match h with
  | some hd =>
    let r := hd.ReadDir name
    match r.2 with
    | some e => (none, some e)
    | none => (some (r.1.map (fun en => ⟨en.Name, en.IsDir⟩)), none)
  | none => os.readDir name

/-- esfo.RemoveAll. -/
def RemoveAll (h : Option FileSystemHandler) (os : NativeOS) (path : String) : Option Err :=
  match h with
  | some hd => hd.RemoveAll path
  | none => os.removeAll path

/-- esfo.ReadLink. -/
def ReadLink (h : Option FileSystemHandler) (os : NativeOS) (name : String) : String × Option Err :=
  match h with
  | some hd => hd.ReadLink name
  | none => os.readLink name

/-- esfo.MkdirTemp. -/
def MkdirTemp (h : Option FileSystemHandler) (os : NativeOS) (dir pattern : String) : String × Option Err :=
  match h with
  | some hd => hd.MkdirTemp dir pattern
  | none => os.mkdirTemp dir pattern

end Esfo

/-! ### Basic facts about the descriptor map and `goCopy` -/

theorem mapErase_cons (p : Nat × wrappedFile) (rest : SwiftFileMap) (k : Nat) :
    mapErase (p :: rest) k =
      if p.1 = k then mapErase rest k else p :: mapErase rest k := by
  by_cases hp : p.1 = k <;> simp [mapErase, List.filter_cons, hp]

theorem mapLookup_mapErase_self (m : SwiftFileMap) (k : Nat) :
    mapLookup (mapErase m k) k = none := by
  induction m with
  | nil => rfl
  | cons p rest ih =>
    rw [mapErase_cons]
    by_cases hp : p.1 = k
    · simpa [hp] using ih
    · simpa [hp, mapLookup] using ih

theorem mapLookup_mapErase_ne (m : SwiftFileMap) (k k' : Nat) (h : k' ≠ k) :
    mapLookup (mapErase m k) k' = mapLookup m k' := by
  induction m with
  | nil => rfl
  | cons p rest ih =>
    rw [mapErase_cons]
    by_cases hp : p.1 = k
    · have hkk' : k ≠ k' := Ne.symm h
      simpa [hp, mapLookup, hkk'] using ih
    · by_cases hpk : p.1 = k'
      · simp [hpk, h, mapLookup]
      · simpa [hp, mapLookup, hpk] using ih

theorem mapLookup_mapInsert_self (m : SwiftFileMap) (k : Nat) (v : wrappedFile) :
    mapLookup (mapInsert m k v) k = some v := by
  simp [mapInsert, mapLookup]

theorem mapLookup_mapInsert_ne (m : SwiftFileMap) (k k' : Nat) (v : wrappedFile)
    (h : k' ≠ k) : mapLookup (mapInsert m k v) k' = mapLookup m k' := by
  have : k ≠ k' := Ne.symm h
  simp [mapInsert, mapLookup, this, mapLookup_mapErase_ne m k k' h]

theorem mapErase_of_lookup_none (m : SwiftFileMap) (k : Nat)
    (h : mapLookup m k = none) : mapErase m k = m := by
  induction m with
  | nil => rfl
  | cons p rest ih =>
    rw [mapErase_cons]
    by_cases hp : p.1 = k
    · simp [mapLookup, hp] at h
    · have h' : mapLookup rest k = none := by
        simpa [mapLookup, hp] using h
      simp [hp, ih h']

theorem goCopy_length (dst src : Bytes) : (goCopy dst src).length = dst.length := by
  simp only [goCopy, List.length_append, List.length_take, List.length_drop]
  omega

theorem goCopy_eq_take_append_drop (dst src : Bytes) :
    goCopy dst src =
      src.take (min dst.length src.length) ++ dst.drop (min dst.length src.length) := by
  rcases le_total src.length dst.length with hle | hle
  · have h1 : src.take dst.length = src := List.take_of_length_le hle
    have h2 : min dst.length src.length = src.length := by omega
    simp [goCopy, h1, h2]
  · have h2 : min dst.length src.length = dst.length := by omega
    simp [goCopy, h2]

/-! ### Concrete oracles used by the witnesses -/

/-- A benign handler: every call succeeds with fixed values. -/
def hTriv : FileSystemHandler where
  WriteFile := fun _ _ _ => none
  ReadFile := fun _ => ([7], none)
  OpenFile := fun _ _ _ => (11, none)
  Create := fun _ => (12, none)
  Close := fun _ => none
  Read := fun _ n => (List.replicate n 1, none)
  Write := fun _ d => ((d.length : Int), none)
  WriteAt := fun _ d _ => ((d.length : Int), none)
  Seek := fun _ o _ => (o, none)
  Sync := fun _ => none
  Remove := fun _ => none
  Mkdir := fun _ _ => none
  MkdirAll := fun _ _ => none
  Stat := fun n => (⟨n, 5, 420, 1700000000, false⟩, none)
  Chmod := fun _ _ => none
  Rename := fun _ _ => none
  ReadDir := fun _ => ([⟨"a", false⟩], none)
  CreateTemp := fun _ _ => ("tmp1", 13, none)
  RemoveAll := fun _ => none
  ReadLink := fun _ => ("dest", none)
  MkdirTemp := fun _ _ => ("tmpdir", none)

/-- A benign native OS: opens yield descriptor 3, reads yield one byte. -/
def osTriv : NativeOS where
  writeFile := fun _ _ _ => none
  readFile := fun _ => ([9], none)
  openFile := fun _ _ _ => Except.ok 3
  create := fun _ => Except.ok 3
  createTemp := fun _ _ => Except.ok 4
  fwrite := fun _ d => ((d.length : Int), none)
  fwriteAt := fun _ d _ => ((d.length : Int), none)
  fread := fun _ _ => ([9], none)
  fseek := fun _ o _ => (o, none)
  fsync := fun _ => none
  fclose := fun _ => none
  fname := fun _ => "native"
  remove := fun _ => none
  mkdir := fun _ _ => none
  mkdirAll := fun _ _ => none
  stat := fun n => (some ⟨n, 1, 420, ⟨0, 0⟩, false⟩, none)
  chmod := fun _ _ => none
  rename := fun _ _ => none
  readDir := fun _ => (some [⟨"b", true⟩], none)
  removeAll := fun _ => none
  readLink := fun _ => ("ndest", none)
  mkdirTemp := fun _ _ => ("ntmpdir", none)

/-- A native OS whose open/create calls fail, for the leak claims. -/
def osOpenFail : NativeOS :=
  { osTriv with
    openFile := fun _ _ _ => Except.error "local open failed"
    create := fun _ => Except.error "local create failed" }

/-- A handler whose Close reports an error, for the close claims. -/
def hCloseErr : FileSystemHandler :=
  { hTriv with Close := fun _ => some "remote close failed" }

/-- A handler that returns two bytes regardless of the requested count,
for the short-read claims. -/
def hReadTwo : FileSystemHandler :=
  { hTriv with Read := fun _ _ => ([4, 5], none) }

/-- A handler whose Read reports an error together with some data. -/
def hReadErr : FileSystemHandler :=
  { hTriv with Read := fun _ _ => ([4, 5], some "remote read failed") }

/-- A one-entry descriptor map tracking native fd 5 with remote
descriptor 9. -/
def mOne : SwiftFileMap := [(5, ⟨5, 9, "x"⟩)]

/-- The tracked file of `mOne`. -/
def fOne : OSFile := ⟨5⟩

/-- The wrapped metadata stored in `mOne`. -/
def wfOne : wrappedFile := ⟨5, 9, "x"⟩

/-- True exactly of remote (handler) close events. -/
def Event.isRemoteClose : Event → Bool
  | .hClose _ => true
  | _ => false

/-! ### C1: no remote descriptor leak on open/create/create-temp -/

/-- C1: for OpenFile, Create and CreateTemp with a handler installed,
when the remote open/create succeeds and the subsequent local step
fails, the local error is returned with the map unchanged and the trace
ends with exactly one remote close, of the descriptor the handler
issued. -/
theorem C1_no_descriptor_leak
    (hd : FileSystemHandler) (os : NativeOS) (m : SwiftFileMap)
    (name dir pattern tmpname : String) (flag : Int) (perm : Nat)
    (fdo fdc fdt : Int) (eo ec et : Err)
    (ho : hd.OpenFile name flag perm = (fdo, none))
    (ho' : os.openFile name flag perm = Except.error eo)
    (hc : hd.Create name = (fdc, none))
    (hc' : os.create name = Except.error ec)
    (ht : hd.CreateTemp dir pattern = (tmpname, fdt, none))
    (ht' : os.openFile tmpname 2 384 = Except.error et) :
    ((Esfo.OpenFile (some hd) os m name flag perm).1 = Except.error eo ∧
      (Esfo.OpenFile (some hd) os m name flag perm).2.1 = m ∧
      (Esfo.OpenFile (some hd) os m name flag perm).2.2 =
        [Event.hOpenFile name flag perm, Event.nOpenFile name flag perm, Event.hClose fdo] ∧
      (Esfo.OpenFile (some hd) os m name flag perm).2.2.countP Event.isRemoteClose = 1) ∧
    ((Esfo.Create (some hd) os m name).1 = Except.error ec ∧
      (Esfo.Create (some hd) os m name).2.1 = m ∧
      (Esfo.Create (some hd) os m name).2.2 =
        [Event.hCreate name, Event.nCreate name, Event.hClose fdc] ∧
      (Esfo.Create (some hd) os m name).2.2.countP Event.isRemoteClose = 1) ∧
    ((Esfo.CreateTemp (some hd) os m dir pattern).1 = Except.error et ∧
      (Esfo.CreateTemp (some hd) os m dir pattern).2.1 = m ∧
      (Esfo.CreateTemp (some hd) os m dir pattern).2.2 =
        [Event.hCreateTemp dir pattern, Event.nOpenFile tmpname 2 384, Event.hClose fdt] ∧
      (Esfo.CreateTemp (some hd) os m dir pattern).2.2.countP Event.isRemoteClose = 1) := by
  refine ⟨?_, ?_, ?_⟩
  · simp [Esfo.OpenFile, ho, ho', List.countP, List.countP.go, Event.isRemoteClose]
  · simp [Esfo.Create, hc, hc', List.countP, List.countP.go, Event.isRemoteClose]
  · simp [Esfo.CreateTemp, ht, ht', List.countP, List.countP.go, Event.isRemoteClose]

/-- Witness for C1 at a concrete handler, a failing native OS, and the
empty map. -/
theorem C1_no_descriptor_leak_witness :
    ((Esfo.OpenFile (some hTriv) osOpenFail [] "a" 0 0).1 =
        Except.error "local open failed" ∧
      (Esfo.OpenFile (some hTriv) osOpenFail [] "a" 0 0).2.1 = [] ∧
      (Esfo.OpenFile (some hTriv) osOpenFail [] "a" 0 0).2.2 =
        [Event.hOpenFile "a" 0 0, Event.nOpenFile "a" 0 0, Event.hClose 11] ∧
      (Esfo.OpenFile (some hTriv) osOpenFail [] "a" 0 0).2.2.countP Event.isRemoteClose = 1) ∧
    ((Esfo.Create (some hTriv) osOpenFail [] "a").1 =
        Except.error "local create failed" ∧
      (Esfo.Create (some hTriv) osOpenFail [] "a").2.1 = [] ∧
      (Esfo.Create (some hTriv) osOpenFail [] "a").2.2 =
        [Event.hCreate "a", Event.nCreate "a", Event.hClose 12] ∧
      (Esfo.Create (some hTriv) osOpenFail [] "a").2.2.countP Event.isRemoteClose = 1) ∧
    ((Esfo.CreateTemp (some hTriv) osOpenFail [] "d" "p").1 =
        Except.error "local open failed" ∧
      (Esfo.CreateTemp (some hTriv) osOpenFail [] "d" "p").2.1 = [] ∧
      (Esfo.CreateTemp (some hTriv) osOpenFail [] "d" "p").2.2 =
        [Event.hCreateTemp "d" "p", Event.nOpenFile "tmp1" 2 384, Event.hClose 13] ∧
      (Esfo.CreateTemp (some hTriv) osOpenFail [] "d" "p").2.2.countP Event.isRemoteClose = 1) :=
  C1_no_descriptor_leak hTriv osOpenFail [] "a" "d" "p" "tmp1" 0 0 11 12 13
    "local open failed" "local create failed" "local open failed"
    rfl rfl rfl rfl rfl rfl

/-! ### C2: tracked handles are routed to the handler -/

/-- C2: on a handle tracked in the map while a handler is installed,
Read, Write, WriteAt, Seek, Sync and Close all dispatch to the handler
at the remote descriptor recorded in the map; their traces contain only
handler calls at that descriptor, no native data I/O, and for Close the
only native event is the final close of the local file object after the
handler close succeeded. -/
theorem C2_routed_to_handler
    (hd : FileSystemHandler) (os : NativeOS) (m : SwiftFileMap) (f : OSFile)
    (wf : wrappedFile) (data : Bytes) (off : Int) (whence : Int)
    (htrack : Esfo.getSwiftFile m f = some wf) :
    ((Esfo.Write (some hd) os m f data).1 = hd.Write wf.swiftFD data ∧
      (Esfo.Write (some hd) os m f data).2.2 = [Event.hWrite wf.swiftFD data]) ∧
    ((Esfo.WriteAt (some hd) os m f data off).1 = hd.WriteAt wf.swiftFD data off ∧
      (Esfo.WriteAt (some hd) os m f data off).2.2 = [Event.hWriteAt wf.swiftFD data off]) ∧
    ((Esfo.Read (some hd) os m f data).2.2.2 = [Event.hRead wf.swiftFD data.length]) ∧
    ((Esfo.Seek (some hd) os m f off whence).1 = hd.Seek wf.swiftFD off whence ∧
      (Esfo.Seek (some hd) os m f off whence).2.2 = [Event.hSeek wf.swiftFD off whence]) ∧
    ((Esfo.Sync (some hd) os m f).1 = hd.Sync wf.swiftFD ∧
      (Esfo.Sync (some hd) os m f).2.2 = [Event.hSync wf.swiftFD]) ∧
    ((Esfo.Close (some hd) os m f).2.2.filter Event.isHandlerCall =
        [Event.hClose wf.swiftFD] ∧
      (Esfo.Close (some hd) os m f).2.2.countP Event.isNativeData = 0) := by
  refine ⟨?_, ?_, ?_, ?_, ?_, ?_⟩
  · simp [Esfo.Write, htrack]
  · simp [Esfo.WriteAt, htrack]
  · rcases hr : (hd.Read wf.swiftFD data.length).2 with _ | e <;>
      simp [Esfo.Read, htrack, hr]
  · simp [Esfo.Seek, htrack]
  · simp [Esfo.Sync, htrack]
  · rcases hc : hd.Close wf.swiftFD with _ | e <;>
      simp [Esfo.Close, htrack, hc, List.filter, List.countP, List.countP.go,
        Event.isHandlerCall, Event.isNativeData]

/-- Witness for C2 at a concrete tracked handle. -/
theorem C2_routed_to_handler_witness :
    ((Esfo.Write (some hTriv) osTriv mOne fOne [1, 2]).1 = hTriv.Write 9 [1, 2] ∧
      (Esfo.Write (some hTriv) osTriv mOne fOne [1, 2]).2.2 = [Event.hWrite 9 [1, 2]]) ∧
    ((Esfo.WriteAt (some hTriv) osTriv mOne fOne [1, 2] 3).1 = hTriv.WriteAt 9 [1, 2] 3 ∧
      (Esfo.WriteAt (some hTriv) osTriv mOne fOne [1, 2] 3).2.2 =
        [Event.hWriteAt 9 [1, 2] 3]) ∧
    ((Esfo.Read (some hTriv) osTriv mOne fOne [1, 2]).2.2.2 = [Event.hRead 9 2]) ∧
    ((Esfo.Seek (some hTriv) osTriv mOne fOne 3 0).1 = hTriv.Seek 9 3 0 ∧
      (Esfo.Seek (some hTriv) osTriv mOne fOne 3 0).2.2 = [Event.hSeek 9 3 0]) ∧
    ((Esfo.Sync (some hTriv) osTriv mOne fOne).1 = hTriv.Sync 9 ∧
      (Esfo.Sync (some hTriv) osTriv mOne fOne).2.2 = [Event.hSync 9]) ∧
    ((Esfo.Close (some hTriv) osTriv mOne fOne).2.2.filter Event.isHandlerCall =
        [Event.hClose 9] ∧
      (Esfo.Close (some hTriv) osTriv mOne fOne).2.2.countP Event.isNativeData = 0) :=
  C2_routed_to_handler hTriv osTriv mOne fOne wfOne [1, 2] 3 0 rfl

/-! ### C3: Read and short or long handler returns -/

/-- C3 counterexample: with a one-byte buffer (N = 1) and a handler
returning two bytes (M = 2), esfo.Read reports `len(b) = 2`, not
`min(N, M) = 1`, so the claim's count is wrong when M > N. -/
theorem C3_count_not_min :
    (Esfo.Read (some hReadTwo) osTriv mOne fOne [0]).1.1 = 2 ∧
    (min (1 : Int) 2 = 1) ∧
    (Esfo.Read (some hReadTwo) osTriv mOne fOne [0]).1.1 ≠ min (1 : Int) 2 := by
  refine ⟨by decide, by decide, by decide⟩

/-- C3 amended: on a tracked handle whose handler Read succeeds with
`b` for a request of `data.length` bytes, esfo.Read copies exactly
`min data.length b.length` bytes into the front of the buffer (the rest
of the buffer is unchanged and its length is preserved) and reports
`b.length`; the reported count equals `min data.length b.length`
whenever the handler returns at most the requested count. -/
theorem C3_read_copies_min
    (hd : FileSystemHandler) (os : NativeOS) (m : SwiftFileMap) (f : OSFile)
    (wf : wrappedFile) (data b : Bytes)
    (htrack : Esfo.getSwiftFile m f = some wf)
    (hread : hd.Read wf.swiftFD data.length = (b, none)) :
    (Esfo.Read (some hd) os m f data).1 = ((b.length : Int), none) ∧
    (Esfo.Read (some hd) os m f data).2.1 =
      b.take (min data.length b.length) ++ data.drop (min data.length b.length) ∧
    (Esfo.Read (some hd) os m f data).2.1.length = data.length ∧
    (b.length ≤ data.length →
      (Esfo.Read (some hd) os m f data).1.1 = ((min data.length b.length : Nat) : Int)) := by
  have hbuf : (Esfo.Read (some hd) os m f data).2.1 = goCopy data b := by
    simp [Esfo.Read, htrack, hread]
  refine ⟨?_, ?_, ?_, ?_⟩
  · simp [Esfo.Read, htrack, hread]
  · rw [hbuf, goCopy_eq_take_append_drop]
  · rw [hbuf, goCopy_length]
  · intro hle
    have : min data.length b.length = b.length := by omega
    simp [Esfo.Read, htrack, hread, this]

/-- Witness for the amended C3: a two-byte buffer and a handler
returning two bytes. -/
theorem C3_read_copies_min_witness :
    (Esfo.Read (some hTriv) osTriv mOne fOne [0, 0]).1 = ((2 : Int), none) ∧
    (Esfo.Read (some hTriv) osTriv mOne fOne [0, 0]).2.1 =
      List.take (min 2 2) [1, 1] ++ List.drop (min 2 2) [0, 0] ∧
    (Esfo.Read (some hTriv) osTriv mOne fOne [0, 0]).2.1.length = 2 ∧
    (Esfo.Read (some hTriv) osTriv mOne fOne [0, 0]).1.1 = ((min 2 2 : Nat) : Int) := by
  have h := C3_read_copies_min hTriv osTriv mOne fOne wfOne [0, 0] [1, 1] rfl rfl
  exact ⟨h.1, h.2.1, h.2.2.1, h.2.2.2 (by decide)⟩

/-! ### C4: Close removes the association unconditionally -/

/-- C4: closing a tracked handle with a handler installed removes the
map entry no matter what the handler's Close returned, and removing an
absent entry is a no-op on the map. -/
theorem C4_close_untracks
    (hd : FileSystemHandler) (os : NativeOS) (m : SwiftFileMap) (f : OSFile)
    (wf : wrappedFile) (htrack : Esfo.getSwiftFile m f = some wf) :
    mapLookup (Esfo.Close (some hd) os m f).2.1 f.fd = none ∧
    (∀ (m' : SwiftFileMap) (k : Nat), mapLookup m' k = none → mapErase m' k = m') := by
  constructor
  · rcases hc : hd.Close wf.swiftFD with _ | e <;>
      simp [Esfo.Close, htrack, hc, Esfo.removeSwiftFile, mapLookup_mapErase_self]
  · exact mapErase_of_lookup_none

/-- Witness for C4: a close whose handler reports an error still leaves
the handle untracked, and erasing a key absent from a concrete map
leaves it unchanged. -/
theorem C4_close_untracks_witness :
    mapLookup (Esfo.Close (some hCloseErr) osTriv mOne fOne).2.1 5 = none ∧
    mapErase mOne 7 = mOne := by
  have h := C4_close_untracks hCloseErr osTriv mOne fOne wfOne rfl
  exact ⟨h.1, h.2 mOne 7 rfl⟩

/-! ### C5: double close acts on no stale entry -/

/-- C5: after closing a tracked handle, the map no longer contains an
entry for it, and a second Close on the same handle is the plain native
close: it makes no handler call, leaves the map unchanged, and returns
the native result (no error about missing handler state). -/
theorem C5_double_close
    (hd : FileSystemHandler) (os : NativeOS) (m : SwiftFileMap) (f : OSFile)
    (wf : wrappedFile) (htrack : Esfo.getSwiftFile m f = some wf) :
    mapLookup (Esfo.Close (some hd) os m f).2.1 f.fd = none ∧
    Esfo.Close (some hd) os (Esfo.Close (some hd) os m f).2.1 f =
      (os.fclose f.fd, (Esfo.Close (some hd) os m f).2.1, [Event.nClose f.fd]) := by
  have hgone : mapLookup (Esfo.Close (some hd) os m f).2.1 f.fd = none := by
    rcases hc : hd.Close wf.swiftFD with _ | e <;>
      simp [Esfo.Close, htrack, hc, Esfo.removeSwiftFile, mapLookup_mapErase_self]
  refine ⟨hgone, ?_⟩
  have close_untracked : ∀ m2 : SwiftFileMap, Esfo.getSwiftFile m2 f = none →
      Esfo.Close (some hd) os m2 f = (os.fclose f.fd, m2, [Event.nClose f.fd]) := by
    intro m2 h2
    simp [Esfo.Close, h2]
  exact close_untracked _ hgone

/-- Witness for C5 at a concrete tracked handle whose handler close
errors (the stale-entry risk case). -/
theorem C5_double_close_witness :
    mapLookup (Esfo.Close (some hCloseErr) osTriv mOne fOne).2.1 5 = none ∧
    Esfo.Close (some hCloseErr) osTriv (Esfo.Close (some hCloseErr) osTriv mOne fOne).2.1 fOne =
      (osTriv.fclose 5, (Esfo.Close (some hCloseErr) osTriv mOne fOne).2.1,
        [Event.nClose 5]) :=
  C5_double_close hCloseErr osTriv mOne fOne wfOne rfl

/-! ### C7: every verb degrades to the native call without a handler -/

/-- C7: with no handler installed, every filesystem verb performs the
equivalent native OS call and returns its result and error unchanged,
leaving the descriptor map untouched. -/
theorem C7_native_when_no_handler
    (os : NativeOS) (m : SwiftFileMap) (f : OSFile)
    (name dir pattern oldp newp : String) (data : Bytes)
    (perm mode : Nat) (flag off whence : Int) :
    Esfo.WriteFile none os name data perm = os.writeFile name data perm ∧
    Esfo.ReadFile none os name = os.readFile name ∧
    ((Esfo.OpenFile none os m name flag perm).1 =
        (os.openFile name flag perm).map (fun nfd => ⟨nfd⟩) ∧
      (Esfo.OpenFile none os m name flag perm).2.1 = m) ∧
    ((Esfo.Create none os m name).1 = (os.create name).map (fun nfd => ⟨nfd⟩) ∧
      (Esfo.Create none os m name).2.1 = m) ∧
    ((Esfo.CreateTemp none os m dir pattern).1 =
        (os.createTemp dir pattern).map (fun nfd => ⟨nfd⟩) ∧
      (Esfo.CreateTemp none os m dir pattern).2.1 = m) ∧
    Esfo.Read none os m f data = Esfo.nativeRead os m f data ∧
    (Esfo.Write none os m f data).1 = os.fwrite f.fd data ∧
    (Esfo.Seek none os m f off whence).1 = os.fseek f.fd off whence ∧
    (Esfo.Sync none os m f).1 = os.fsync f.fd ∧
    (Esfo.Close none os m f).1 = os.fclose f.fd ∧
    Esfo.Remove none os name = os.remove name ∧
    Esfo.Mkdir none os name perm = os.mkdir name perm ∧
    Esfo.MkdirAll none os name perm = os.mkdirAll name perm ∧
    Esfo.Stat none os name = os.stat name ∧
    Esfo.Chmod none os name mode = os.chmod name mode ∧
    Esfo.Rename none os oldp newp = os.rename oldp newp ∧
    Esfo.ReadDir none os name = os.readDir name ∧
    Esfo.RemoveAll none os name = os.removeAll name ∧
    Esfo.ReadLink none os name = os.readLink name ∧
    Esfo.MkdirTemp none os dir pattern = os.mkdirTemp dir pattern := by
  refine ⟨rfl, rfl, ?_, ?_, ?_, rfl, rfl, rfl, rfl, rfl, rfl, rfl, rfl, rfl,
    rfl, rfl, rfl, rfl, rfl, rfl⟩
  · rcases hos : os.openFile name flag perm with e | nfd <;>
      simp [Esfo.OpenFile, hos, Except.map]
  · rcases hos : os.create name with e | nfd <;>
      simp [Esfo.Create, hos, Except.map]
  · rcases hos : os.createTemp dir pattern with e | nfd <;>
      simp [Esfo.CreateTemp, hos, Except.map]

/-! ### C8: Stat translates the handler metadata field for field -/

/-- C8: a successful Stat with a handler installed returns the
handler's FileInfo translated field-for-field into the native value
object, with the epoch-seconds ModTime converted by `time.Unix(sec, 0)`. -/
theorem C8_stat_translation
    (hd : FileSystemHandler) (os : NativeOS) (name : String) (fi : FileInfo)
    (hstat : hd.Stat name = (fi, none)) :
    Esfo.Stat (some hd) os name =
      (some ⟨fi.Name, fi.Size, fi.Mode, Time.Unix fi.ModTime 0, fi.IsDir⟩, none) := by
  simp [Esfo.Stat, hstat]

/-- Witness for C8 at a concrete handler. -/
theorem C8_stat_translation_witness :
    Esfo.Stat (some hTriv) osTriv "a" =
      (some ⟨"a", 5, 420, Time.Unix 1700000000 0, false⟩, none) :=
  C8_stat_translation hTriv osTriv "a" ⟨"a", 5, 420, 1700000000, false⟩ rfl

/-! ### C9: Read error path leaves the buffer untouched -/

/-- C9: on a tracked handle, when the handler's Read reports an error,
esfo.Read returns count 0 with that error, the caller's buffer exactly
as it was, and the map unchanged (nothing is copied on the error path,
even if the handler also returned data). -/
theorem C9_read_error_path
    (hd : FileSystemHandler) (os : NativeOS) (m : SwiftFileMap) (f : OSFile)
    (wf : wrappedFile) (data b : Bytes) (e : Err)
    (htrack : Esfo.getSwiftFile m f = some wf)
    (hread : hd.Read wf.swiftFD data.length = (b, some e)) :
    Esfo.Read (some hd) os m f data =
      ((0, some e), data, m, [Event.hRead wf.swiftFD data.length]) := by
  simp [Esfo.Read, htrack, hread]

/-- Witness for C9: the handler returns data alongside the error, yet
the buffer comes back unchanged. -/
theorem C9_read_error_path_witness :
    Esfo.Read (some hReadErr) osTriv mOne fOne [7, 8] =
      ((0, some "remote read failed"), [7, 8], mOne, [Event.hRead 9 2]) :=
  C9_read_error_path hReadErr osTriv mOne fOne wfOne [7, 8] [4, 5]
    "remote read failed" rfl rfl

/-! ### C10: untracked handles fall back to native I/O -/

/-- C10: with a handler installed, a handle that has no map entry is
served by native I/O for Write, WriteAt, Read, Seek, Sync and Close,
returning the native result with the map unchanged and no handler
call. -/
theorem C10_untracked_native_fallback
    (hd : FileSystemHandler) (os : NativeOS) (m : SwiftFileMap) (f : OSFile)
    (data : Bytes) (off whence : Int)
    (huntracked : Esfo.getSwiftFile m f = none) :
    Esfo.Write (some hd) os m f data = (os.fwrite f.fd data, m, [Event.nWrite f.fd data]) ∧
    Esfo.WriteAt (some hd) os m f data off =
      (os.fwriteAt f.fd data off, m, [Event.nWriteAt f.fd data off]) ∧
    Esfo.Read (some hd) os m f data = Esfo.nativeRead os m f data ∧
    Esfo.Seek (some hd) os m f off whence =
      (os.fseek f.fd off whence, m, [Event.nSeek f.fd off whence]) ∧
    Esfo.Sync (some hd) os m f = (os.fsync f.fd, m, [Event.nSync f.fd]) ∧
    Esfo.Close (some hd) os m f = (os.fclose f.fd, m, [Event.nClose f.fd]) := by
  refine ⟨?_, ?_, ?_, ?_, ?_, ?_⟩ <;>
    simp [Esfo.Write, Esfo.WriteAt, Esfo.Read, Esfo.Seek, Esfo.Sync, Esfo.Close,
      huntracked]

/-- Witness for C10 on a handle absent from the map. -/
theorem C10_untracked_native_fallback_witness :
    Esfo.Write (some hTriv) osTriv mOne ⟨6⟩ [1] =
      (osTriv.fwrite 6 [1], mOne, [Event.nWrite 6 [1]]) ∧
    Esfo.WriteAt (some hTriv) osTriv mOne ⟨6⟩ [1] 2 =
      (osTriv.fwriteAt 6 [1] 2, mOne, [Event.nWriteAt 6 [1] 2]) ∧
    Esfo.Read (some hTriv) osTriv mOne ⟨6⟩ [1] = Esfo.nativeRead osTriv mOne ⟨6⟩ [1] ∧
    Esfo.Seek (some hTriv) osTriv mOne ⟨6⟩ 2 0 =
      (osTriv.fseek 6 2 0, mOne, [Event.nSeek 6 2 0]) ∧
    Esfo.Sync (some hTriv) osTriv mOne ⟨6⟩ = (osTriv.fsync 6, mOne, [Event.nSync 6]) ∧
    Esfo.Close (some hTriv) osTriv mOne ⟨6⟩ = (osTriv.fclose 6, mOne, [Event.nClose 6]) :=
  C10_untracked_native_fallback hTriv osTriv mOne ⟨6⟩ [1] 2 0 rfl

/-! ### C6: the descriptor-map invariant

A small transition system over the embedded operations.  The handler
is fixed for the whole run (the spec installs it once at startup).
`openH` is the ghost list of native descriptors of handles that are
currently open and were created by an esfo open/create/create-temp
call while the handler was installed; `openN` the same for handles
created while no handler was installed.  Path verbs (WriteFile, Remove,
Stat, ...) never touch the descriptor map — in this embedding they do
not even take it — so the step relation covers exactly the operations
that can read or write it. -/

structure World where
  m : SwiftFileMap
  openH : List Nat
  openN : List Nat
  deriving Repr, DecidableEq

def World.init : World := ⟨[], [], []⟩

/-- Remove a descriptor from a ghost list. -/
def remFd (l : List Nat) (fd : Nat) : List Nat := l.filter (fun x => x != fd)

theorem mem_remFd (l : List Nat) (fd x : Nat) :
    x ∈ remFd l fd ↔ x ∈ l ∧ x ≠ fd := by
  simp [remFd, List.mem_filter]

/-- One esfo operation, as observed on the shared descriptor map.  The
new map component is always the one the embedded function returns; the
ghost open lists record which handles are open and how they were
created.  A freshly opened native file gets a descriptor not used by
any currently open file. -/
inductive Step (h : Option FileSystemHandler) (os : NativeOS) : World → World → Prop where
  | openOk (w : World) (name : String) (flag : Int) (perm : Nat) (f : OSFile)
      (hres : (Esfo.OpenFile h os w.m name flag perm).1 = Except.ok f)
      (hfreshH : f.fd ∉ w.openH) (hfreshN : f.fd ∉ w.openN) :
      Step h os w ⟨(Esfo.OpenFile h os w.m name flag perm).2.1,
        if h.isSome then f.fd :: w.openH else w.openH,
        if h.isSome then w.openN else f.fd :: w.openN⟩
  | openErr (w : World) (name : String) (flag : Int) (perm : Nat) (e : Err)
      (hres : (Esfo.OpenFile h os w.m name flag perm).1 = Except.error e) :
      Step h os w ⟨(Esfo.OpenFile h os w.m name flag perm).2.1, w.openH, w.openN⟩
  | createOk (w : World) (name : String) (f : OSFile)
      (hres : (Esfo.Create h os w.m name).1 = Except.ok f)
      (hfreshH : f.fd ∉ w.openH) (hfreshN : f.fd ∉ w.openN) :
      Step h os w ⟨(Esfo.Create h os w.m name).2.1,
        if h.isSome then f.fd :: w.openH else w.openH,
        if h.isSome then w.openN else f.fd :: w.openN⟩
  | createErr (w : World) (name : String) (e : Err)
      (hres : (Esfo.Create h os w.m name).1 = Except.error e) :
      Step h os w ⟨(Esfo.Create h os w.m name).2.1, w.openH, w.openN⟩
  | createTempOk (w : World) (dir pattern : String) (f : OSFile)
      (hres : (Esfo.CreateTemp h os w.m dir pattern).1 = Except.ok f)
      (hfreshH : f.fd ∉ w.openH) (hfreshN : f.fd ∉ w.openN) :
      Step h os w ⟨(Esfo.CreateTemp h os w.m dir pattern).2.1,
        if h.isSome then f.fd :: w.openH else w.openH,
        if h.isSome then w.openN else f.fd :: w.openN⟩
  | createTempErr (w : World) (dir pattern : String) (e : Err)
      (hres : (Esfo.CreateTemp h os w.m dir pattern).1 = Except.error e) :
      Step h os w ⟨(Esfo.CreateTemp h os w.m dir pattern).2.1, w.openH, w.openN⟩
  | close (w : World) (f : OSFile) :
      Step h os w ⟨(Esfo.Close h os w.m f).2.1, remFd w.openH f.fd, remFd w.openN f.fd⟩
  | write (w : World) (f : OSFile) (data : Bytes) :
      Step h os w ⟨(Esfo.Write h os w.m f data).2.1, w.openH, w.openN⟩
  | writeAt (w : World) (f : OSFile) (data : Bytes) (off : Int) :
      Step h os w ⟨(Esfo.WriteAt h os w.m f data off).2.1, w.openH, w.openN⟩
  | read (w : World) (f : OSFile) (data : Bytes) :
      Step h os w ⟨(Esfo.Read h os w.m f data).2.2.1, w.openH, w.openN⟩
  | seek (w : World) (f : OSFile) (off whence : Int) :
      Step h os w ⟨(Esfo.Seek h os w.m f off whence).2.1, w.openH, w.openN⟩
  | sync (w : World) (f : OSFile) :
      Step h os w ⟨(Esfo.Sync h os w.m f).2.1, w.openH, w.openN⟩

/-- The claim's invariant: a map entry exists for a descriptor exactly
when that descriptor belongs to a currently open handle created through
esfo while the handler was installed.  The second conjunct is the
strengthening that makes the invariant inductive: with no handler
installed, no handle is ever created-while-active. -/
def MapInv (h : Option FileSystemHandler) (w : World) : Prop :=
  (∀ fd, (mapLookup w.m fd).isSome = true ↔ fd ∈ w.openH) ∧
  (h = none → w.openH = [])

/-! Shape lemmas: how each operation transforms the descriptor map. -/

theorem openFile_err_map (h : Option FileSystemHandler) (os : NativeOS)
    (m : SwiftFileMap) (name : String) (flag : Int) (perm : Nat) (e : Err)
    (hres : (Esfo.OpenFile h os m name flag perm).1 = Except.error e) :
    (Esfo.OpenFile h os m name flag perm).2.1 = m := by
  cases h with
  | none =>
    rcases hos : os.openFile name flag perm with e' | nfd
    · simp [Esfo.OpenFile, hos]
    · simp [Esfo.OpenFile, hos] at hres
  | some hd =>
    rcases hh : (hd.OpenFile name flag perm).2 with _ | e'
    · rcases hos : os.openFile name flag perm with e' | nfd
      · simp [Esfo.OpenFile, hh, hos]
      · simp [Esfo.OpenFile, hh, hos] at hres
    · simp [Esfo.OpenFile, hh]

theorem openFile_ok_map (hd : FileSystemHandler) (os : NativeOS)
    (m : SwiftFileMap) (name : String) (flag : Int) (perm : Nat) (f : OSFile)
    (hres : (Esfo.OpenFile (some hd) os m name flag perm).1 = Except.ok f) :
    (Esfo.OpenFile (some hd) os m name flag perm).2.1 =
      Esfo.addSwiftFile m f (hd.OpenFile name flag perm).1 name := by
  rcases hh : (hd.OpenFile name flag perm).2 with _ | e'
  · rcases hos : os.openFile name flag perm with e' | nfd
    · simp [Esfo.OpenFile, hh, hos] at hres
    · simp [Esfo.OpenFile, hh, hos] at hres ⊢
      rw [← hres]
  · simp [Esfo.OpenFile, hh] at hres

theorem openFile_none_map (os : NativeOS) (m : SwiftFileMap)
    (name : String) (flag : Int) (perm : Nat) :
    (Esfo.OpenFile none os m name flag perm).2.1 = m := by
  rcases hos : os.openFile name flag perm with e' | nfd <;> simp [Esfo.OpenFile, hos]

theorem create_err_map (h : Option FileSystemHandler) (os : NativeOS)
    (m : SwiftFileMap) (name : String) (e : Err)
    (hres : (Esfo.Create h os m name).1 = Except.error e) :
    (Esfo.Create h os m name).2.1 = m := by
  cases h with
  | none =>
    rcases hos : os.create name with e' | nfd
    · simp [Esfo.Create, hos]
    · simp [Esfo.Create, hos] at hres
  | some hd =>
    rcases hh : (hd.Create name).2 with _ | e'
    · rcases hos : os.create name with e' | nfd
      · simp [Esfo.Create, hh, hos]
      · simp [Esfo.Create, hh, hos] at hres
    · simp [Esfo.Create, hh]

theorem create_ok_map (hd : FileSystemHandler) (os : NativeOS)
    (m : SwiftFileMap) (name : String) (f : OSFile)
    (hres : (Esfo.Create (some hd) os m name).1 = Except.ok f) :
    (Esfo.Create (some hd) os m name).2.1 =
      Esfo.addSwiftFile m f (hd.Create name).1 name := by
  rcases hh : (hd.Create name).2 with _ | e'
  · rcases hos : os.create name with e' | nfd
    · simp [Esfo.Create, hh, hos] at hres
    · simp [Esfo.Create, hh, hos] at hres ⊢
      rw [← hres]
  · simp [Esfo.Create, hh] at hres

theorem create_none_map (os : NativeOS) (m : SwiftFileMap) (name : String) :
    (Esfo.Create none os m name).2.1 = m := by
  rcases hos : os.create name with e' | nfd <;> simp [Esfo.Create, hos]

theorem createTemp_err_map (h : Option FileSystemHandler) (os : NativeOS)
    (m : SwiftFileMap) (dir pattern : String) (e : Err)
    (hres : (Esfo.CreateTemp h os m dir pattern).1 = Except.error e) :
    (Esfo.CreateTemp h os m dir pattern).2.1 = m := by
  cases h with
  | none =>
    rcases hos : os.createTemp dir pattern with e' | nfd
    · simp [Esfo.CreateTemp, hos]
    · simp [Esfo.CreateTemp, hos] at hres
  | some hd =>
    rcases hh : (hd.CreateTemp dir pattern).2.2 with _ | e'
    · rcases hos : os.openFile (hd.CreateTemp dir pattern).1 2 384 with e' | nfd
      · simp [Esfo.CreateTemp, hh, hos]
      · simp [Esfo.CreateTemp, hh, hos] at hres
    · simp [Esfo.CreateTemp, hh]

theorem createTemp_ok_map (hd : FileSystemHandler) (os : NativeOS)
    (m : SwiftFileMap) (dir pattern : String) (f : OSFile)
    (hres : (Esfo.CreateTemp (some hd) os m dir pattern).1 = Except.ok f) :
    (Esfo.CreateTemp (some hd) os m dir pattern).2.1 =
      Esfo.addSwiftFile m f (hd.CreateTemp dir pattern).2.1 (hd.CreateTemp dir pattern).1 := by
  rcases hh : (hd.CreateTemp dir pattern).2.2 with _ | e'
  · rcases hos : os.openFile (hd.CreateTemp dir pattern).1 2 384 with e' | nfd
    · simp [Esfo.CreateTemp, hh, hos] at hres
    · simp [Esfo.CreateTemp, hh, hos] at hres ⊢
      rw [← hres]
  · simp [Esfo.CreateTemp, hh] at hres

theorem createTemp_none_map (os : NativeOS) (m : SwiftFileMap) (dir pattern : String) :
    (Esfo.CreateTemp none os m dir pattern).2.1 = m := by
  rcases hos : os.createTemp dir pattern with e' | nfd <;> simp [Esfo.CreateTemp, hos]

theorem close_map (h : Option FileSystemHandler) (os : NativeOS)
    (m : SwiftFileMap) (f : OSFile) :
    (Esfo.Close h os m f).2.1 =
      (match h with
        | some _ =>
          match Esfo.getSwiftFile m f with
          | some _ => mapErase m f.fd
          | none => m
        | none => m) := by
  cases h with
  | none => rfl
  | some hd =>
    rcases hg : Esfo.getSwiftFile m f with _ | wf
    · simp [Esfo.Close, hg]
    · rcases hc : hd.Close wf.swiftFD with _ | e <;>
        simp [Esfo.Close, hg, hc, Esfo.removeSwiftFile]

theorem write_map (h : Option FileSystemHandler) (os : NativeOS)
    (m : SwiftFileMap) (f : OSFile) (data : Bytes) :
    (Esfo.Write h os m f data).2.1 = m := by
  cases h with
  | none => rfl
  | some hd => rcases hg : Esfo.getSwiftFile m f with _ | wf <;> simp [Esfo.Write, hg]

theorem writeAt_map (h : Option FileSystemHandler) (os : NativeOS)
    (m : SwiftFileMap) (f : OSFile) (data : Bytes) (off : Int) :
    (Esfo.WriteAt h os m f data off).2.1 = m := by
  cases h with
  | none => rfl
  | some hd => rcases hg : Esfo.getSwiftFile m f with _ | wf <;> simp [Esfo.WriteAt, hg]

theorem read_map (h : Option FileSystemHandler) (os : NativeOS)
    (m : SwiftFileMap) (f : OSFile) (data : Bytes) :
    (Esfo.Read h os m f data).2.2.1 = m := by
  cases h with
  | none => rfl
  | some hd =>
    rcases hg : Esfo.getSwiftFile m f with _ | wf
    · simp [Esfo.Read, hg, Esfo.nativeRead]
    · rcases hr : (hd.Read wf.swiftFD data.length).2 with _ | e <;>
        simp [Esfo.Read, hg, hr]

theorem seek_map (h : Option FileSystemHandler) (os : NativeOS)
    (m : SwiftFileMap) (f : OSFile) (off whence : Int) :
    (Esfo.Seek h os m f off whence).2.1 = m := by
  cases h with
  | none => rfl
  | some hd => rcases hg : Esfo.getSwiftFile m f with _ | wf <;> simp [Esfo.Seek, hg]

theorem sync_map (h : Option FileSystemHandler) (os : NativeOS)
    (m : SwiftFileMap) (f : OSFile) :
    (Esfo.Sync h os m f).2.1 = m := by
  cases h with
  | none => rfl
  | some hd => rcases hg : Esfo.getSwiftFile m f with _ | wf <;> simp [Esfo.Sync, hg]

/-- Invariant step for the three successful open-style verbs: inserting
the fresh descriptor's record preserves the map invariant. -/
theorem mapInv_insert (m : SwiftFileMap) (openH : List Nat) (nfd : Nat)
    (v : wrappedFile)
    (hinv : ∀ fd, (mapLookup m fd).isSome = true ↔ fd ∈ openH) :
    ∀ fd, (mapLookup (mapInsert m nfd v) fd).isSome = true ↔ fd ∈ nfd :: openH := by
  intro fd
  by_cases hfd : fd = nfd
  · subst hfd
    simp [mapLookup_mapInsert_self]
  · rw [mapLookup_mapInsert_ne m nfd fd v hfd]
    simp [List.mem_cons, hfd, hinv fd]

/-- C6: every operation of the bridge preserves the invariant that a
descriptor-map entry exists exactly for the currently open handles that
were created through esfo while the handler was installed; the initial
state satisfies it. -/
theorem C6_map_invariant
    (h : Option FileSystemHandler) (os : NativeOS) (w w' : World)
    (hinv : MapInv h w) (hstep : Step h os w w') :
    MapInv h World.init ∧ MapInv h w' := by
  constructor
  · exact ⟨fun fd => by simp [World.init, mapLookup], fun _ => rfl⟩
  · cases hstep with
    | openOk name flag perm f hres hfreshH hfreshN =>
      cases h with
      | none =>
        refine ⟨fun fd => ?_, fun _ => ?_⟩
        · show (mapLookup (Esfo.OpenFile none os w.m name flag perm).2.1 fd).isSome = true ↔ _
          rw [openFile_none_map]
          simpa using hinv.1 fd
        · simpa using hinv.2 rfl
      | some hd =>
        refine ⟨fun fd => ?_, fun hn => by cases hn⟩
        show (mapLookup (Esfo.OpenFile (some hd) os w.m name flag perm).2.1 fd).isSome = true ↔ _
        rw [openFile_ok_map hd os w.m name flag perm f hres]
        simpa [Esfo.addSwiftFile] using
          mapInv_insert w.m w.openH f.fd ⟨f.fd, (hd.OpenFile name flag perm).1, name⟩
            hinv.1 fd
    | openErr name flag perm e hres =>
      refine ⟨fun fd => ?_, fun hn => hinv.2 hn⟩
      show (mapLookup (Esfo.OpenFile h os w.m name flag perm).2.1 fd).isSome = true ↔ _
      rw [openFile_err_map h os w.m name flag perm e hres]
      exact hinv.1 fd
    | createOk name f hres hfreshH hfreshN =>
      cases h with
      | none =>
        refine ⟨fun fd => ?_, fun _ => ?_⟩
        · show (mapLookup (Esfo.Create none os w.m name).2.1 fd).isSome = true ↔ _
          rw [create_none_map]
          simpa using hinv.1 fd
        · simpa using hinv.2 rfl
      | some hd =>
        refine ⟨fun fd => ?_, fun hn => by cases hn⟩
        show (mapLookup (Esfo.Create (some hd) os w.m name).2.1 fd).isSome = true ↔ _
        rw [create_ok_map hd os w.m name f hres]
        simpa [Esfo.addSwiftFile] using
          mapInv_insert w.m w.openH f.fd ⟨f.fd, (hd.Create name).1, name⟩ hinv.1 fd
    | createErr name e hres =>
      refine ⟨fun fd => ?_, fun hn => hinv.2 hn⟩
      show (mapLookup (Esfo.Create h os w.m name).2.1 fd).isSome = true ↔ _
      rw [create_err_map h os w.m name e hres]
      exact hinv.1 fd
    | createTempOk dir pattern f hres hfreshH hfreshN =>
      cases h with
      | none =>
        refine ⟨fun fd => ?_, fun _ => ?_⟩
        · show (mapLookup (Esfo.CreateTemp none os w.m dir pattern).2.1 fd).isSome = true ↔ _
          rw [createTemp_none_map]
          simpa using hinv.1 fd
        · simpa using hinv.2 rfl
      | some hd =>
        refine ⟨fun fd => ?_, fun hn => by cases hn⟩
        show (mapLookup (Esfo.CreateTemp (some hd) os w.m dir pattern).2.1 fd).isSome = true ↔ _
        rw [createTemp_ok_map hd os w.m dir pattern f hres]
        simpa [Esfo.addSwiftFile] using
          mapInv_insert w.m w.openH f.fd
            ⟨f.fd, (hd.CreateTemp dir pattern).2.1, (hd.CreateTemp dir pattern).1⟩ hinv.1 fd
    | createTempErr dir pattern e hres =>
      refine ⟨fun fd => ?_, fun hn => hinv.2 hn⟩
      show (mapLookup (Esfo.CreateTemp h os w.m dir pattern).2.1 fd).isSome = true ↔ _
      rw [createTemp_err_map h os w.m dir pattern e hres]
      exact hinv.1 fd
    | close f =>
      refine ⟨fun fd => ?_, fun hn => ?_⟩
      · show (mapLookup (Esfo.Close h os w.m f).2.1 fd).isSome = true ↔ fd ∈ remFd w.openH f.fd
        rw [close_map h os w.m f]
        cases h with
        | none =>
          simp only [mem_remFd]
          constructor
          · intro hl
            exact ⟨(hinv.1 fd).mp hl, by
              intro hcontra
              have : fd ∈ w.openH := (hinv.1 fd).mp hl
              rw [hinv.2 rfl] at this
              cases this⟩
          · intro hr
            exact (hinv.1 fd).mpr hr.1
        | some hd =>
          rcases hg : Esfo.getSwiftFile w.m f with _ | wf
          · simp only [hg, mem_remFd]
            by_cases hfd : fd = f.fd
            · subst hfd
              have hnone : mapLookup w.m f.fd = none := hg
              simp [hnone]
            · simp only [hfd, ne_eq, not_false_iff, and_true]
              exact hinv.1 fd
          · simp only [hg, mem_remFd]
            by_cases hfd : fd = f.fd
            · subst hfd
              simp [mapLookup_mapErase_self]
            · rw [mapLookup_mapErase_ne w.m f.fd fd hfd]
              simp only [hfd, ne_eq, not_false_iff, and_true]
              exact hinv.1 fd
      · show remFd w.openH f.fd = []
        rw [hinv.2 hn]
        rfl
    | write f data =>
      refine ⟨fun fd => ?_, fun hn => hinv.2 hn⟩
      show (mapLookup (Esfo.Write h os w.m f data).2.1 fd).isSome = true ↔ _
      rw [write_map]
      exact hinv.1 fd
    | writeAt f data off =>
      refine ⟨fun fd => ?_, fun hn => hinv.2 hn⟩
      show (mapLookup (Esfo.WriteAt h os w.m f data off).2.1 fd).isSome = true ↔ _
      rw [writeAt_map]
      exact hinv.1 fd
    | read f data =>
      refine ⟨fun fd => ?_, fun hn => hinv.2 hn⟩
      show (mapLookup (Esfo.Read h os w.m f data).2.2.1 fd).isSome = true ↔ _
      rw [read_map]
      exact hinv.1 fd
    | seek f off whence =>
      refine ⟨fun fd => ?_, fun hn => hinv.2 hn⟩
      show (mapLookup (Esfo.Seek h os w.m f off whence).2.1 fd).isSome = true ↔ _
      rw [seek_map]
      exact hinv.1 fd
    | sync f =>
      refine ⟨fun fd => ?_, fun hn => hinv.2 hn⟩
      show (mapLookup (Esfo.Sync h os w.m f).2.1 fd).isSome = true ↔ _
      rw [sync_map]
      exact hinv.1 fd

/-- Witness for C6: one successful OpenFile step out of the initial
state, with a concrete handler and OS. -/
theorem C6_map_invariant_witness :
    MapInv (some hTriv) World.init ∧
    MapInv (some hTriv) ⟨[(3, ⟨3, 11, "a"⟩)], [3], []⟩ := by
  exact C6_map_invariant (some hTriv) osTriv World.init _
    ⟨fun fd => by simp [World.init, mapLookup], fun _ => rfl⟩
    (Step.openOk World.init "a" 0 0 ⟨3⟩ rfl (by simp [World.init]) (by simp [World.init]))
